import Mathlib

/-!
Shallow embedding of the fitness-studio booking service (`app.py`):
in-memory catalog of fitness classes, booking ledger, and the three
endpoint handlers `book_a_fitness_class`, `get_all_fitness_classes`,
`get_client_bookings_by_email`, plus the test-only reset endpoint
`reset_test_data`.  Nondeterministic inputs of the Python code
(`uuid.uuid4()`, `datetime.now()`) are passed in as explicit string
parameters.
-/

/-- One fitness class record, as stored in the module-level `classes` list. -/
structure FitnessClass where
  id : String
  name : String
  date_time : String
  instructor : String
  total_slots : Int
  available_slots : Int
deriving Repr, DecidableEq

/-- One booking record, as stored in the module-level `bookings` list. -/
structure Booking where
  booking_id : String
  class_id : String
  client_name : String
  client_email : String
  booking_time : String
deriving Repr, DecidableEq

/-- The shared mutable module-level state: the `classes` list and the
`bookings` list. -/
structure AppState where
  classes : List FitnessClass
  bookings : List Booking
deriving Repr, DecidableEq

/-- Python truthiness of an optional string field extracted with
`request_data.get(...)`: `None` and the empty string are falsy. -/
def truthy : Option String → Bool
  | some s => s != ""
  | none => false

/-- Result of `POST /book` (`book_a_fitness_class`): HTTP 400 for missing
fields, 404 for an unknown class id, 409 for a full class, and 201 with the
new booking record and `class_remaining_slots` on success. -/
inductive BookResult where
  | invalidInput
  | classNotFound
  | classFull
  | ok (booking_details : Booking) (class_remaining_slots : Int)
deriving Repr, DecidableEq

/-- In-place decrement of `available_slots` of the first class in the list
whose `id` equals `cid` (the Python code mutates the dict found by the
first-match loop at lines 109-113). -/
def decrementFirst : List FitnessClass → String → List FitnessClass
  | [], _ => []
  | c :: rest, cid =>
    if c.id == cid then
      { c with available_slots := c.available_slots - 1 } :: rest
    else
      c :: decrementFirst rest cid

/-- The booking record built at lines 129-135 of `app.py`. -/
def mkBooking (cid nm em fid now : String) : Booking :=
  { booking_id := fid, class_id := cid, client_name := nm,
    client_email := em, booking_time := now }

/-- `book_a_fitness_class` (`POST /book`, lines 84-144 of `app.py`).
Inputs are the three JSON fields (absent fields are `none`), the fresh
`uuid.uuid4()` string and the `datetime.now()` timestamp.  Returns the
response together with the post-call state. -/
def book_a_fitness_class (st : AppState) (class_id client_name client_email : Option String)
    (fresh_id now : String) : BookResult × AppState :=
  if truthy class_id && truthy client_name && truthy client_email then
    match st.classes.find? (fun cls => cls.id == class_id.getD "") with
    | none => (.classNotFound, st)
    | some target_class =>
      if target_class.available_slots ≤ 0 then
        (.classFull, st)
      else
        let nb := mkBooking (class_id.getD "") (client_name.getD "") (client_email.getD "")
          fresh_id now
        (.ok nb (target_class.available_slots - 1),
         { classes := decrementFirst st.classes (class_id.getD ""),
           bookings := st.bookings ++ [nb] })
  else
    (.invalidInput, st)

/-- `get_all_fitness_classes` (`GET /classes`): returns the whole `classes`
list, no side effects. -/
def get_all_fitness_classes (st : AppState) : List FitnessClass :=
  st.classes

/-- Result of `GET /bookings` (`get_client_bookings_by_email`): HTTP 400
when the query parameter is missing or empty, HTTP 200 with a
"No bookings found" message object when the filter is empty, HTTP 200 with
the matching bookings otherwise. -/
inductive BookingsResult where
  | invalidInput
  | noneFound (email : String)
  | found (bs : List Booking)
deriving Repr, DecidableEq

/-- The HTTP status code the handler attaches to each `BookingsResult`. -/
def statusCode : BookingsResult → Nat
  | .invalidInput => 400
  | .noneFound _ => 200
  | .found _ => 200

/-- Python's `str.lower()`, as character-wise lowering of the string's
characters. -/
def pyLower (s : String) : String :=
  String.mk (s.data.map Char.toLower)

/-- The case-insensitive e-mail comparison at line 164 of `app.py`:
`booking['client_email'].lower() == client_email_query.lower()`. -/
def emailMatches (q : String) (b : Booking) : Bool :=
  pyLower b.client_email == pyLower q

/-- The list of bookings a `BookingsResult` carries (the message responses
carry none). -/
def returnedBookings : BookingsResult → List Booking
  | .found bs => bs
  | _ => []

/-- `get_client_bookings_by_email` (`GET /bookings`, lines 146-172 of
`app.py`).  The query parameter is `none` when absent. -/
def get_client_bookings_by_email (st : AppState) (client_email_query : Option String) :
    BookingsResult :=
  match client_email_query with
  | none => .invalidInput
  | some q =>
    if q == "" then .invalidInput
    else
      let client_specific_bookings := st.bookings.filter (emailMatches q)
      if client_specific_bookings.isEmpty then .noneFound q
      else .found client_specific_bookings

/-- The four seed classes rebuilt by `reset_test_data` (lines 30-63); the
fresh uuids and the computed ISO timestamps are parameters. -/
def seedClasses (i1 i2 i3 i4 t1 t2 t3 t4 : String) : List FitnessClass :=
  [ { id := i1, name := "Sunrise Yoga & Meditation", date_time := t1,
      instructor := "Zen Master Yoda", total_slots := 18, available_slots := 18 },
    { id := i2, name := "Power HIIT Blast", date_time := t2,
      instructor := "Captain America", total_slots := 12, available_slots := 12 },
    { id := i3, name := "Groovy Zumba Fiesta", date_time := t3,
      instructor := "Beyonc√© Knowles", total_slots := 25, available_slots := 25 },
    { id := i4, name := "Core Strength Pilates", date_time := t4,
      instructor := "Wonder Woman", total_slots := 14, available_slots := 14 } ]

/-- `reset_test_data` (`POST /test/reset_data`): reinstalls the seed classes
and clears the bookings list. -/
def reset_test_data (i1 i2 i3 i4 t1 t2 t3 t4 : String) : AppState :=
  { classes := seedClasses i1 i2 i3 i4 t1 t2 t3 t4, bookings := [] }

/-- One core operation, for reasoning about arbitrary operation sequences.
Read-only endpoints are included: they do not change the state. -/
inductive Op where
  | book (class_id client_name client_email : Option String) (fresh_id now : String)
  | listClasses
  | bookingsFor (email : Option String)
  | reset (i1 i2 i3 i4 t1 t2 t3 t4 : String)
deriving Repr

/-- State transition of one operation. -/
def applyOp (st : AppState) : Op → AppState
  | .book cid nm em fid now => (book_a_fitness_class st cid nm em fid now).2
  | .listClasses => st
  | .bookingsFor _ => st
  | .reset i1 i2 i3 i4 t1 t2 t3 t4 => reset_test_data i1 i2 i3 i4 t1 t2 t3 t4

/-- Run a sequence of operations from a starting state. -/
def runOps (st : AppState) (ops : List Op) : AppState :=
  ops.foldl applyOp st

/-- The capacity invariant: every class has `0 ≤ available_slots ≤
total_slots`. -/
def SlotsInv (st : AppState) : Prop :=
  ∀ c ∈ st.classes, 0 ≤ c.available_slots ∧ c.available_slots ≤ c.total_slots

instance (st : AppState) : Decidable (SlotsInv st) :=
  inferInstanceAs (Decidable (∀ c ∈ st.classes, _ ∧ _))

/-- Compact constructor for concrete class fixtures used in tests below. -/
def mkClass (cid nm dt ins : String) (total avail : Int) : FitnessClass :=
  { id := cid, name := nm, date_time := dt, instructor := ins,
    total_slots := total, available_slots := avail }

/-! ### Supporting lemmas -/

theorem find?_decrementFirst (cs : List FitnessClass) (cid : String) (t : FitnessClass)
    (h : cs.find? (fun c => c.id == cid) = some t) :
    (decrementFirst cs cid).find? (fun c => c.id == cid) =
      some { t with available_slots := t.available_slots - 1 } := by
  induction cs with
  | nil => simp [List.find?] at h
  | cons c rest ih =>
    rw [List.find?_cons] at h
    by_cases hc : (c.id == cid) = true
    · simp only [hc] at h
      injection h with h
      subst h
      simp [decrementFirst, hc, List.find?_cons]
    · simp only [Bool.not_eq_true] at hc
      simp only [hc] at h
      simp [decrementFirst, hc, List.find?_cons, ih h]

theorem decrementFirst_eq_set (cs : List FitnessClass) (cid : String) (t : FitnessClass)
    (h : cs.find? (fun c => c.id == cid) = some t) :
    ∃ j, cs.get? j = some t ∧
      decrementFirst cs cid = cs.set j { t with available_slots := t.available_slots - 1 } := by
  induction cs with
  | nil => simp [List.find?] at h
  | cons c rest ih =>
    rw [List.find?_cons] at h
    by_cases hc : (c.id == cid) = true
    · simp only [hc] at h
      injection h with h
      subst h
      exact ⟨0, rfl, by simp [decrementFirst, hc]⟩
    · simp only [Bool.not_eq_true] at hc
      simp only [hc] at h
      obtain ⟨j, hget, hset⟩ := ih h
      exact ⟨j + 1, hget, by simp [decrementFirst, hc, hset]⟩

theorem book_preserves_inv (st : AppState) (cid nm em : Option String) (fid now : String)
    (h : SlotsInv st) :
    SlotsInv (book_a_fitness_class st cid nm em fid now).2 := by
  unfold book_a_fitness_class
  split
  · split
    · exact h
    · rename_i target hfind
      split
      · exact h
      · rename_i hpos
        push_neg at hpos
        intro c hc
        obtain ⟨j, hget, hset⟩ := decrementFirst_eq_set st.classes (cid.getD "") target hfind
        simp only [hset] at hc
        rcases List.mem_or_eq_of_mem_set hc with hmem | rfl
        · exact h c hmem
        · have ht := h target (List.get?_mem hget)
          obtain ⟨ht1, ht2⟩ := ht
          refine ⟨?_, ?_⟩
          · show (0 : Int) ≤ target.available_slots - 1
            omega
          · show target.available_slots - 1 ≤ target.total_slots
            omega
  · exact h

theorem seed_inv (i1 i2 i3 i4 t1 t2 t3 t4 : String) :
    SlotsInv (reset_test_data i1 i2 i3 i4 t1 t2 t3 t4) := by
  intro c hc
  simp only [reset_test_data, seedClasses, List.mem_cons, List.not_mem_nil, or_false] at hc
  rcases hc with rfl | rfl | rfl | rfl <;> exact ⟨by norm_num, by norm_num⟩

theorem applyOp_preserves_inv (st : AppState) (op : Op) (h : SlotsInv st) :
    SlotsInv (applyOp st op) := by
  cases op with
  | book cid nm em fid now => exact book_preserves_inv st cid nm em fid now h
  | listClasses => exact h
  | bookingsFor _ => exact h
  | reset i1 i2 i3 i4 t1 t2 t3 t4 => exact seed_inv i1 i2 i3 i4 t1 t2 t3 t4

theorem book_success_eq (st : AppState) (cid nm em : Option String) (fid now : String)
    (hcid : truthy cid = true) (hnm : truthy nm = true) (hem : truthy em = true)
    (target : FitnessClass)
    (hfind : st.classes.find? (fun c => c.id == cid.getD "") = some target)
    (hpos : 0 < target.available_slots) :
    book_a_fitness_class st cid nm em fid now =
      (.ok (mkBooking (cid.getD "") (nm.getD "") (em.getD "") fid now)
        (target.available_slots - 1),
       { classes := decrementFirst st.classes (cid.getD ""),
         bookings := st.bookings ++
           [mkBooking (cid.getD "") (nm.getD "") (em.getD "") fid now] }) := by
  have hc : (truthy cid && truthy nm && truthy em) = true := by
    rw [hcid, hnm, hem]
    rfl
  unfold book_a_fitness_class
  rw [if_pos hc]
  split
  · rename_i heq
    rw [heq] at hfind
    cases hfind
  · rename_i target2 heq
    rw [heq] at hfind
    injection hfind with hfind
    subst hfind
    rw [if_neg (by omega : ¬ target2.available_slots ≤ 0)]

/-- C1: for every fitness class and after every sequence of core operations
(`book_a_fitness_class`, `get_all_fitness_classes`,
`get_client_bookings_by_email`, `reset_test_data`), the class's
`available_slots` lies between 0 and its `total_slots` inclusive. -/
theorem slots_invariant_holds (st : AppState) (h : SlotsInv st) (ops : List Op) :
    SlotsInv (runOps st ops) := by
  induction ops generalizing st with
  | nil => exact h
  | cons op rest ih => exact ih (applyOp st op) (applyOp_preserves_inv st op h)

theorem slots_invariant_holds_witness :
    SlotsInv ⟨[mkClass "c1" "Yoga" "t" "i" 1 1], []⟩ ∧
    SlotsInv (runOps ⟨[mkClass "c1" "Yoga" "t" "i" 1 1], []⟩
      [Op.book (some "c1") (some "Alice") (some "a@x.com") "b1" "t1",
       Op.book (some "c1") (some "Bob") (some "b@x.com") "b2" "t2",
       Op.bookingsFor (some "a@x.com")]) :=
  ⟨by decide, slots_invariant_holds _ (by decide) _⟩

/-- C3: booking a class that exists but has `available_slots == 0` (with all
three fields non-empty) fails with ClassFull (HTTP 409) and leaves the
catalog and the booking ledger unchanged. -/
theorem bookClass_full_fails (st : AppState) (cid nm em : Option String) (fid now : String)
    (hcid : truthy cid = true) (hnm : truthy nm = true) (hem : truthy em = true)
    (target : FitnessClass)
    (hfind : st.classes.find? (fun c => c.id == cid.getD "") = some target)
    (hzero : target.available_slots = 0) :
    book_a_fitness_class st cid nm em fid now = (.classFull, st) := by
  have hc : (truthy cid && truthy nm && truthy em) = true := by
    rw [hcid, hnm, hem]
    rfl
  unfold book_a_fitness_class
  rw [if_pos hc]
  split
  · rename_i heq
    rw [heq] at hfind
    cases hfind
  · rename_i target2 heq
    rw [heq] at hfind
    injection hfind with hfind
    subst hfind
    rw [if_pos (by omega : target2.available_slots ≤ 0)]

theorem bookClass_full_fails_witness :
    book_a_fitness_class ⟨[mkClass "c1" "Yoga" "t" "i" 2 0], []⟩
        (some "c1") (some "Alice") (some "a@x.com") "b1" "t1" =
      (.classFull, ⟨[mkClass "c1" "Yoga" "t" "i" 2 0], []⟩) :=
  bookClass_full_fails _ (some "c1") (some "Alice") (some "a@x.com") "b1" "t1"
    (by decide) (by decide) (by decide) (mkClass "c1" "Yoga" "t" "i" 2 0)
    (by decide) (by decide)

/-- C7: a `book_a_fitness_class` call in which `class_id`, `client_name` or
`client_email` is empty or absent fails with InvalidInput (HTTP 400) and
performs no state mutation. -/
theorem bookClass_missing_field_invalid (st : AppState) (cid nm em : Option String)
    (fid now : String)
    (h : truthy cid = false ∨ truthy nm = false ∨ truthy em = false) :
    book_a_fitness_class st cid nm em fid now = (.invalidInput, st) := by
  unfold book_a_fitness_class
  rcases h with h | h | h <;> simp [h]

theorem bookClass_missing_field_invalid_witness :
    book_a_fitness_class { classes := [], bookings := [] }
        (some "Yoga") (some "") (some "a@x.com") "b1" "t1" =
      (.invalidInput, { classes := [], bookings := [] }) :=
  bookClass_missing_field_invalid _ _ _ _ _ _ (Or.inr (Or.inl (by decide)))

/-- C4 counterexample: with the unknown class id "bad-id" but an empty
`client_name`, `book_a_fitness_class` fails with InvalidInput, not with
ClassNotFound as the claim requires for every field content. -/
theorem bookClass_unknown_id_empty_name_invalid :
    book_a_fitness_class ⟨[], []⟩ (some "bad-id") (some "") (some "a@x.com") "b1" "t1" =
      (.invalidInput, ⟨[], []⟩) ∧
    BookResult.invalidInput ≠ BookResult.classNotFound := by
  exact ⟨by decide, by decide⟩

/-- C4 (amended): a `book_a_fitness_class` call whose three fields are all
non-empty and whose `class_id` matches no existing class fails with
ClassNotFound, regardless of the further content of `client_name` and
`client_email` (field validation runs first, so empty or absent fields fail
with InvalidInput instead). -/
theorem bookClass_unknown_id_notFound (st : AppState) (cid nm em : Option String)
    (fid now : String)
    (hcid : truthy cid = true) (hnm : truthy nm = true) (hem : truthy em = true)
    (hfind : st.classes.find? (fun c => c.id == cid.getD "") = none) :
    book_a_fitness_class st cid nm em fid now = (.classNotFound, st) := by
  have hc : (truthy cid && truthy nm && truthy em) = true := by
    rw [hcid, hnm, hem]
    rfl
  unfold book_a_fitness_class
  rw [if_pos hc, hfind]

theorem bookClass_unknown_id_notFound_witness :
    book_a_fitness_class ⟨[mkClass "c1" "Yoga" "t" "i" 2 2], []⟩
        (some "bad-id") (some "Alice") (some "a@x.com") "b1" "t1" =
      (.classNotFound, ⟨[mkClass "c1" "Yoga" "t" "i" 2 2], []⟩) :=
  bookClass_unknown_id_notFound _ (some "bad-id") (some "Alice") (some "a@x.com") "b1" "t1"
    (by decide) (by decide) (by decide) (by decide)

/-- C10: whenever `book_a_fitness_class` fails with ClassNotFound, the
catalog and the booking ledger are left unchanged. -/
theorem bookClass_notFound_frame (st : AppState) (cid nm em : Option String)
    (fid now : String) :
    (book_a_fitness_class st cid nm em fid now).1 = BookResult.classNotFound →
    (book_a_fitness_class st cid nm em fid now).2 = st := by
  unfold book_a_fitness_class
  split
  · split
    · exact fun _ => rfl
    · split
      · exact fun _ => rfl
      · intro h
        exact absurd h (by simp)
  · exact fun _ => rfl

theorem bookClass_notFound_frame_witness :
    (book_a_fitness_class ⟨[], []⟩ (some "bad-id") (some "Alice") (some "a@x.com")
        "b1" "t1").1 = BookResult.classNotFound ∧
    (book_a_fitness_class ⟨[], []⟩ (some "bad-id") (some "Alice") (some "a@x.com")
        "b1" "t1").2 = ⟨[], []⟩ :=
  ⟨by decide, bookClass_notFound_frame _ _ _ _ _ _ (by decide)⟩

/-- C8: a successful `book_a_fitness_class` call returns the created booking
record carrying the given `class_id`, `client_name` and `client_email`
together with the post-decrement `available_slots`, which equals the
class's `available_slots` immediately before the call minus 1 (and equals
the slots stored for that class in the post-state). -/
theorem bookClass_success_returns (st : AppState) (cid nm em : Option String)
    (fid now : String)
    (hcid : truthy cid = true) (hnm : truthy nm = true) (hem : truthy em = true)
    (target : FitnessClass)
    (hfind : st.classes.find? (fun c => c.id == cid.getD "") = some target)
    (hpos : 0 < target.available_slots) :
    (book_a_fitness_class st cid nm em fid now).1 =
      .ok (mkBooking (cid.getD "") (nm.getD "") (em.getD "") fid now)
        (target.available_slots - 1) ∧
    (book_a_fitness_class st cid nm em fid now).2.classes.find?
        (fun c => c.id == cid.getD "") =
      some { target with available_slots := target.available_slots - 1 } := by
  rw [book_success_eq st cid nm em fid now hcid hnm hem target hfind hpos]
  exact ⟨rfl, find?_decrementFirst st.classes (cid.getD "") target hfind⟩

theorem bookClass_success_returns_witness :
    (book_a_fitness_class ⟨[mkClass "c1" "Yoga" "t" "i" 3 2], []⟩
        (some "c1") (some "Alice") (some "a@x.com") "b1" "t1").1 =
      .ok (mkBooking "c1" "Alice" "a@x.com" "b1" "t1") 1 ∧
    (book_a_fitness_class ⟨[mkClass "c1" "Yoga" "t" "i" 3 2], []⟩
        (some "c1") (some "Alice") (some "a@x.com") "b1" "t1").2.classes.find?
        (fun c => c.id == "c1") =
      some (mkClass "c1" "Yoga" "t" "i" 3 1) :=
  bookClass_success_returns _ (some "c1") (some "Alice") (some "a@x.com") "b1" "t1"
    (by decide) (by decide) (by decide) (mkClass "c1" "Yoga" "t" "i" 3 2)
    (by decide) (by decide)

/-- C9: a successful `book_a_fitness_class` call appends exactly one booking
record at the end of the ledger, leaving every pre-existing entry and their
order unchanged, and rewrites the class list as a single-position update of
the booked class in which only `available_slots` changes; every other class
is untouched. -/
theorem bookClass_success_frame (st : AppState) (cid nm em : Option String)
    (fid now : String)
    (hcid : truthy cid = true) (hnm : truthy nm = true) (hem : truthy em = true)
    (target : FitnessClass)
    (hfind : st.classes.find? (fun c => c.id == cid.getD "") = some target)
    (hpos : 0 < target.available_slots) :
    (book_a_fitness_class st cid nm em fid now).2.bookings =
      st.bookings ++ [mkBooking (cid.getD "") (nm.getD "") (em.getD "") fid now] ∧
    ∃ j, st.classes.get? j = some target ∧
      (book_a_fitness_class st cid nm em fid now).2.classes =
        st.classes.set j { target with available_slots := target.available_slots - 1 } := by
  rw [book_success_eq st cid nm em fid now hcid hnm hem target hfind hpos]
  obtain ⟨j, hget, hset⟩ := decrementFirst_eq_set st.classes (cid.getD "") target hfind
  exact ⟨rfl, j, hget, hset⟩

theorem bookClass_success_frame_witness :
    (book_a_fitness_class
        ⟨[mkClass "c0" "HIIT" "t0" "i0" 5 5, mkClass "c1" "Yoga" "t" "i" 3 2],
         [mkBooking "c0" "Bob" "b@x.com" "b0" "t0"]⟩
        (some "c1") (some "Alice") (some "a@x.com") "b1" "t1").2.bookings =
      [mkBooking "c0" "Bob" "b@x.com" "b0" "t0"] ++
        [mkBooking "c1" "Alice" "a@x.com" "b1" "t1"] ∧
    ∃ j, ([mkClass "c0" "HIIT" "t0" "i0" 5 5, mkClass "c1" "Yoga" "t" "i" 3 2].get? j =
        some (mkClass "c1" "Yoga" "t" "i" 3 2)) ∧
      (book_a_fitness_class
        ⟨[mkClass "c0" "HIIT" "t0" "i0" 5 5, mkClass "c1" "Yoga" "t" "i" 3 2],
         [mkBooking "c0" "Bob" "b@x.com" "b0" "t0"]⟩
        (some "c1") (some "Alice") (some "a@x.com") "b1" "t1").2.classes =
        [mkClass "c0" "HIIT" "t0" "i0" 5 5, mkClass "c1" "Yoga" "t" "i" 3 2].set j
          (mkClass "c1" "Yoga" "t" "i" 3 1) :=
  bookClass_success_frame _ (some "c1") (some "Alice") (some "a@x.com") "b1" "t1"
    (by decide) (by decide) (by decide) (mkClass "c1" "Yoga" "t" "i" 3 2)
    (by decide) (by decide)

/-- C5 counterexample: querying an email with no matching booking yields the
"No bookings found" message response, which is not the empty booking list
the claim describes. -/
theorem bookingsForClient_no_match_message_not_list :
    get_client_bookings_by_email ⟨[], []⟩ (some "x@y.com") =
      BookingsResult.noneFound "x@y.com" ∧
    get_client_bookings_by_email ⟨[], []⟩ (some "x@y.com") ≠
      BookingsResult.found [] := by
  exact ⟨by decide, by decide⟩

/-- C5 (amended): for every non-empty email with no matching booking in the
ledger, `get_client_bookings_by_email` succeeds with HTTP status 200 (not an
error), but the body is a "No bookings found" message object rather than an
empty sequence of bookings. -/
theorem bookingsForClient_no_match_success (st : AppState) (q : String) (hq : q ≠ "")
    (hnone : st.bookings.filter (emailMatches q) = []) :
    get_client_bookings_by_email st (some q) = BookingsResult.noneFound q ∧
    statusCode (get_client_bookings_by_email st (some q)) = 200 := by
  have hq2 : (q == "") = false := by
    simpa using hq
  have hmain : get_client_bookings_by_email st (some q) = BookingsResult.noneFound q := by
    simp only [get_client_bookings_by_email, hq2, Bool.false_eq_true, if_false]
    simp [hnone]
  refine ⟨hmain, ?_⟩
  rw [hmain]
  rfl

theorem bookingsForClient_no_match_success_witness :
    get_client_bookings_by_email ⟨[], [mkBooking "c1" "Bob" "z@w.com" "b0" "t0"]⟩
        (some "x@y.com") = BookingsResult.noneFound "x@y.com" ∧
    statusCode (get_client_bookings_by_email
        ⟨[], [mkBooking "c1" "Bob" "z@w.com" "b0" "t0"]⟩ (some "x@y.com")) = 200 :=
  bookingsForClient_no_match_success _ "x@y.com" (by decide) (by decide)

/-- C6: for every non-empty query email, `get_client_bookings_by_email`
returns exactly the bookings whose `client_email` equals the query under
case-insensitive comparison, in ledger insertion order (the list response is
produced whenever at least one booking matches; the message response carries
no bookings, matching the empty filter). -/
theorem bookingsForClient_case_insensitive (st : AppState) (q : String) (hq : q ≠ "") :
    returnedBookings (get_client_bookings_by_email st (some q)) =
      st.bookings.filter (emailMatches q) ∧
    (st.bookings.filter (emailMatches q) ≠ [] →
      get_client_bookings_by_email st (some q) =
        BookingsResult.found (st.bookings.filter (emailMatches q))) := by
  have hq2 : (q == "") = false := by
    simpa using hq
  simp only [get_client_bookings_by_email, hq2, Bool.false_eq_true, if_false]
  by_cases hf : st.bookings.filter (emailMatches q) = []
  · simp [hf, returnedBookings]
  · simp [List.isEmpty_eq_false_iff_exists_mem.mpr
      (List.exists_mem_of_ne_nil _ hf), returnedBookings, hf]

theorem bookingsForClient_case_insensitive_witness :
    ("a@b.com" : String) ≠ "" ∧
    returnedBookings (get_client_bookings_by_email
        ⟨[], [mkBooking "c1" "Alice" "A@B.com" "b1" "t1"]⟩ (some "a@b.com")) =
      [mkBooking "c1" "Alice" "A@B.com" "b1" "t1"] :=
  ⟨by decide, by
    rw [(bookingsForClient_case_insensitive
      ⟨[], [mkBooking "c1" "Alice" "A@B.com" "b1" "t1"]⟩ "a@b.com" (by decide)).1]
    decide⟩

/-!
### Interleaved execution of concurrent `book_a_fitness_class` calls

`book_a_fitness_class` performs an unsynchronized check-then-mutate: the
availability check at line 120 and the decrement at line 126 of `app.py`
are separate steps with no lock, so a thread switch may occur between them.
A thread is modelled with a two-phase program counter: `start` runs the
validation, the class lookup and the availability check (lines 105-122);
`ready` runs the decrement, the ledger append and the response construction
(lines 126-144).  In the `ready` phase the Python code holds a direct
reference to the class dict found earlier; since no operation removes or
reorders classes, relocating the class by id at that point is equivalent
(the `none` branch there is unreachable).
-/

/-- The arguments of one in-flight `book_a_fitness_class` call. -/
structure ThreadCall where
  class_id : Option String
  client_name : Option String
  client_email : Option String
  fresh_id : String
  now : String
deriving Repr, DecidableEq

/-- Program counter of one in-flight call. -/
inductive ThreadPhase where
  | start
  | ready
  | finished (r : BookResult)
deriving Repr, DecidableEq

/-- One thread executing `book_a_fitness_class`. -/
structure BookThread where
  call : ThreadCall
  phase : ThreadPhase
deriving Repr, DecidableEq

/-- One atomic step of a thread against the shared state. -/
def stepThread (st : AppState) (t : BookThread) : BookThread × AppState :=
  match t.phase with
  | .start =>
    if truthy t.call.class_id && truthy t.call.client_name && truthy t.call.client_email then
      match st.classes.find? (fun cls => cls.id == t.call.class_id.getD "") with
      | none => ({ t with phase := .finished .classNotFound }, st)
      | some target_class =>
        if target_class.available_slots ≤ 0 then
          ({ t with phase := .finished .classFull }, st)
        else
          ({ t with phase := .ready }, st)
    else
      ({ t with phase := .finished .invalidInput }, st)
  | .ready =>
    match st.classes.find? (fun cls => cls.id == t.call.class_id.getD "") with
    | none => ({ t with phase := .finished .classNotFound }, st)
    | some target_class =>
      let nb := mkBooking (t.call.class_id.getD "") (t.call.client_name.getD "")
        (t.call.client_email.getD "") t.call.fresh_id t.call.now
      ({ t with phase := .finished (.ok nb (target_class.available_slots - 1)) },
       { classes := decrementFirst st.classes (t.call.class_id.getD ""),
         bookings := st.bookings ++ [nb] })
  | .finished _ => (t, st)

/-- Shared state together with the in-flight threads. -/
structure ConcState where
  shared : AppState
  threads : List BookThread
deriving Repr, DecidableEq

/-- Let thread `i` take one atomic step (no-op for an out-of-range index). -/
def schedStep (s : ConcState) (i : Nat) : ConcState :=
  match s.threads.get? i with
  | none => s
  | some t =>
    let p := stepThread s.shared t
    { shared := p.2, threads := s.threads.set i p.1 }

/-- Run the interleaving described by a schedule of thread indices. -/
def runSched (s : ConcState) (sched : List Nat) : ConcState :=
  sched.foldl schedStep s

/-- Whether a thread has completed its call successfully. -/
def succeeded (t : BookThread) : Bool :=
  match t.phase with
  | .finished (.ok _ _) => true
  | _ => false

/-- Two concurrent calls racing on the last slot of a class with
`total_slots = 1`, both still at their first step. -/
def raceStart : ConcState :=
  { shared := { classes := [mkClass "c1" "Yoga" "t" "i" 1 1], bookings := [] },
    threads := [ { call := { class_id := some "c1", client_name := some "Alice",
                             client_email := some "a@x.com", fresh_id := "b1", now := "t1" },
                   phase := .start },
                 { call := { class_id := some "c1", client_name := some "Bob",
                             client_email := some "b@x.com", fresh_id := "b2", now := "t2" },
                   phase := .start } ] }

/-- C2: refuted for the code as written.  Booking has no mutual exclusion
around check-then-decrement, so under the interleaving check/check/
decrement/decrement both racing calls on the last slot of a class with
`total_slots = 1` succeed: the ledger then holds 2 bookings for the class
(more than N = 1), no call failed with ClassFull, and `available_slots` is
driven to -1. -/
theorem bookClass_race_oversells :
    (runSched raceStart [0, 1, 0, 1]).threads.countP succeeded = 2 ∧
    ((runSched raceStart [0, 1, 0, 1]).shared.bookings.countP
      (fun b => b.class_id == "c1")) = 2 ∧
    (runSched raceStart [0, 1, 0, 1]).shared.classes.map
      FitnessClass.available_slots = [-1] := by
  exact ⟨by decide, by decide, by decide⟩
